import Mathlib

/-!
Verification development for the `geth/jail` package of status-go.

The definitions below are a shallow embedding of `src/geth/jail/jail.go`
(the batch RPC dispatcher `Send`, session initialization `Parse`,
the cell registry `NewCell`, the envelope helpers `makeResult` and
`makeError`) and of the JavaScript `call` fixture embedded in
`src/geth/jail/rxsend_test.go`.  The script engine (otto), the standard
library JSON codec and the `ExecutionPolicy` collaborator are external to
the sources under `src/`; where the claims need them they are modelled from
the specification, and each such definition says so in its doc comment.
-/

set_option autoImplicit false

/-- Model of the dynamic values exchanged with the script engine: JSON data
plus the engine's distinguished `undefined` value (otto values). -/
inductive JSON where
  | null
  | undef
  | bool (b : Bool)
  | num (n : Int)
  | str (s : String)
  | arr (xs : List JSON)
  | obj (fields : List (String × JSON))

/-- Whether a value is an array (outermost token of its serialization is
an array). -/
def JSON.isArr : JSON → Bool
  | JSON.arr _ => true
  | _ => false

/-- The opening brace character. -/
def lbrace : Char := Char.ofNat 123

/-- The closing brace character. -/
def rbrace : Char := Char.ofNat 125

/-- The decimal digit character for `d` (meaningful for `d < 10`). -/
def digitChar (d : Nat) : Char := Char.ofNat (48 + d)

/-- Decimal digits of a natural number, most significant first (fueled
so that the kernel can evaluate it; the fuel in `natToDigits` always
suffices). -/
def natToDigitsAux : Nat → Nat → List Char
  | 0, _ => []
  | Nat.succ fuel, n =>
    if n < 10 then [digitChar n]
    else natToDigitsAux fuel (n / 10) ++ [digitChar (n % 10)]

/-- Decimal digits of a natural number, most significant first. -/
def natToDigits (n : Nat) : List Char := natToDigitsAux (n + 1) n

/-- Decimal rendering of an integer as a character list. -/
def intChars (n : Int) : List Char :=
  if n < 0 then '-' :: natToDigits n.natAbs else natToDigits n.natAbs

/-- JSON string escaping (model of the escaping done by `json.Marshal` and
by the engine's `JSON.stringify`, restricted to quote and backslash). -/
def escapeChars : List Char → List Char
  | [] => []
  | c :: cs =>
    (if c == '"' then [ '\\', '"' ]
     else if c == '\\' then [ '\\', '\\' ]
     else [c]) ++ escapeChars cs

mutual

/-- Serialization of a value to JSON text (model of the engine's
`JSON.stringify`; `undef` renders as the text an otto `String()` call
would produce for it). -/
def stringifyChars : JSON → List Char
  | JSON.null => [ 'n', 'u', 'l', 'l' ]
  | JSON.undef => [ 'u', 'n', 'd', 'e', 'f', 'i', 'n', 'e', 'd' ]
  | JSON.bool true => [ 't', 'r', 'u', 'e' ]
  | JSON.bool false => [ 'f', 'a', 'l', 's', 'e' ]
  | JSON.num n => intChars n
  | JSON.str s => '"' :: (escapeChars s.data ++ [ '"' ])
  | JSON.arr xs => '[' :: (stringifyList xs ++ [ ']' ])
  | JSON.obj fs => lbrace :: (stringifyFields fs ++ [rbrace])

/-- Serialization of array elements, comma separated. -/
def stringifyList : List JSON → List Char
  | [] => []
  | [x] => stringifyChars x
  | x :: y :: xs => stringifyChars x ++ ',' :: stringifyList (y :: xs)

/-- Serialization of object fields, comma separated. -/
def stringifyFields : List (String × JSON) → List Char
  | [] => []
  | [(k, v)] => '"' :: (escapeChars k.data ++ '"' :: ':' :: stringifyChars v)
  | (k, v) :: f :: fs =>
    ('"' :: (escapeChars k.data ++ '"' :: ':' :: stringifyChars v))
      ++ ',' :: stringifyFields (f :: fs)

end

/-- Serialization of a value to a JSON string. -/
def stringifyJSON (v : JSON) : String := String.mk (stringifyChars v)

/-- JSON whitespace. -/
def isWsChar (c : Char) : Bool := c == ' ' || c == '\n' || c == '\t' || c == '\r'

/-- Drop leading JSON whitespace. -/
def skipWs : List Char → List Char
  | [] => []
  | c :: cs => if isWsChar c then skipWs cs else c :: cs

/-- Unescape one escaped character of a JSON string literal. -/
def escChar (c : Char) : Char :=
  if c == 'n' then '\n' else if c == 't' then '\t' else c

/-- Read the contents of a JSON string literal up to the closing quote,
returning the decoded characters and the remaining input. -/
def readStringChars : List Char → Option (List Char × List Char)
  | [] => none
  | '"' :: rest => some ([], rest)
  | '\\' :: c :: rest =>
    (readStringChars rest).map (fun p => (escChar c :: p.1, p.2))
  | c :: rest =>
    (readStringChars rest).map (fun p => (c :: p.1, p.2))

/-- Value of a list of decimal digit characters. -/
def digitsToNat (ds : List Char) : Nat :=
  ds.foldl (fun acc c => acc * 10 + (c.toNat - 48)) 0

/-- Parse a nonnegative decimal integer prefix. -/
def parseNumFrom (cs : List Char) : Option (JSON × List Char) :=
  match List.span Char.isDigit cs with
  | ([], _) => none
  | (ds, rest) => some (JSON.num (Int.ofNat (digitsToNat ds)), rest)

mutual

/-- Fueled recursive-descent JSON parser (model of the decoding side of
the standard library `encoding/json` for the JSON subset used by the
dispatcher: null, booleans, integers, strings, arrays, objects). -/
def parseJSONF : Nat → List Char → Option (JSON × List Char)
  | 0, _ => none
  | Nat.succ fuel, cs =>
    match skipWs cs with
    | 'n' :: 'u' :: 'l' :: 'l' :: rest => some (JSON.null, rest)
    | 't' :: 'r' :: 'u' :: 'e' :: rest => some (JSON.bool true, rest)
    | 'f' :: 'a' :: 'l' :: 's' :: 'e' :: rest => some (JSON.bool false, rest)
    | '"' :: rest =>
      match readStringChars rest with
      | some (chars, rest2) => some (JSON.str (String.mk chars), rest2)
      | none => none
    | '[' :: rest =>
      match skipWs rest with
      | ']' :: rest2 => some (JSON.arr [], rest2)
      | rest1 =>
        match parseElemsF fuel rest1 with
        | some (xs, rest2) => some (JSON.arr xs, rest2)
        | none => none
    | '-' :: rest =>
      match parseNumFrom rest with
      | some (JSON.num n, rest2) => some (JSON.num (-n), rest2)
      | _ => none
    | c :: rest =>
      if c == lbrace then
        match skipWs rest with
        | c2 :: rest2 =>
          if c2 == rbrace then some (JSON.obj [], rest2)
          else
            match parseFieldsF fuel (c2 :: rest2) with
            | some (fs, rest3) => some (JSON.obj fs, rest3)
            | none => none
        | [] => none
      else if c.isDigit then parseNumFrom (c :: rest)
      else none
    | [] => none

/-- Parse one or more comma-separated array elements followed by a closing
bracket. -/
def parseElemsF : Nat → List Char → Option (List JSON × List Char)
  | 0, _ => none
  | Nat.succ fuel, cs =>
    match parseJSONF fuel cs with
    | none => none
    | some (v, rest) =>
      match skipWs rest with
      | ',' :: rest2 =>
        match parseElemsF fuel rest2 with
        | some (xs, rest3) => some (v :: xs, rest3)
        | none => none
      | ']' :: rest2 => some ([v], rest2)
      | _ => none

/-- Parse one or more comma-separated object fields followed by a closing
brace. -/
def parseFieldsF : Nat → List Char → Option (List (String × JSON) × List Char)
  | 0, _ => none
  | Nat.succ fuel, cs =>
    match skipWs cs with
    | '"' :: rest =>
      match readStringChars rest with
      | none => none
      | some (key, rest1) =>
        match skipWs rest1 with
        | ':' :: rest2 =>
          match parseJSONF fuel rest2 with
          | none => none
          | some (v, rest3) =>
            match skipWs rest3 with
            | ',' :: rest4 =>
              match parseFieldsF fuel rest4 with
              | some (fs, rest5) => some ((String.mk key, v) :: fs, rest5)
              | none => none
            | c :: rest4 =>
              if c == rbrace then some ([(String.mk key, v)], rest4) else none
            | [] => none
        | _ => none
    | _ => none

end

/-- Parse a whole JSON document; trailing content other than whitespace is
an error, as in `json.Unmarshal`. -/
def parseJSONTop (raw : String) : Option JSON :=
  match parseJSONF (raw.data.length + 2) raw.data with
  | some (v, rest) => if skipWs rest = [] then some v else none
  | none => none

/-- Modelled from the spec: `common.RPCCall` is declared outside `src/`.
One RPC call description: method name, ordered parameters, and a
caller-supplied identifier (string, number or null) echoed back in the
corresponding response. -/
structure RPCCall where
  method : String
  params : List JSON
  id : JSON

instance : Inhabited RPCCall := ⟨⟨"", [], JSON.null⟩⟩

/-- Decode one JSON value into an `RPCCall` (model of `json.Unmarshal`
into the call structure: the payload must be an object, each present field
must have the right type, absent fields default). -/
def decodeRPCCall (j : JSON) : Option RPCCall :=
  match j with
  | JSON.obj fields =>
    let mOK : Option String :=
      match List.lookup "method" fields with
      | none => some ""
      | some (JSON.str s) => some s
      | some _ => none
    let pOK : Option (List JSON) :=
      match List.lookup "params" fields with
      | none => some []
      | some (JSON.arr xs) => some xs
      | some _ => none
    let iOK : Option JSON :=
      match List.lookup "id" fields with
      | none => some JSON.null
      | some JSON.null => some JSON.null
      | some (JSON.num n) => some (JSON.num n)
      | some (JSON.str s) => some (JSON.str s)
      | some _ => none
    match mOK, pOK, iOK with
    | some m, some p, some i => some ⟨m, p, i⟩
    | _, _, _ => none
  | _ => none

/-- Decode the raw request payload into the ordered call sequence, as the
two `json.Unmarshal` branches of `Send` do: an array of calls when
`batch`, otherwise a one-element sequence holding the single call. -/
def decodeRequest (raw : String) (batch : Bool) : Option (List RPCCall) :=
  match parseJSONTop raw with
  | none => none
  | some j =>
    if batch then
      match j with
      | JSON.arr xs => xs.mapM decodeRPCCall
      | _ => none
    else
      (decodeRPCCall j).map (fun c => [c])

/-- `makeError` from `jail.go`: wraps a message into the error envelope by
marshalling the `JSONError` wrapper struct. -/
def makeError (error : String) : String :=
  "\x7b\"error\":" ++ String.mk ( '"' :: (escapeChars error.data ++ [ '"' ])) ++ "\x7d"

/-- `makeResult` from `jail.go`: with an error present it returns the
error envelope, otherwise it wraps the raw text into the result envelope,
normalizing the literal text undefined to null first. -/
def makeResult (res : String) (err : Option String) : String :=
  match err with
  | some e => makeError e
  | none =>
    "\x7b\"result\": " ++ (if res = "undefined" then "null" else res) ++ "\x7d"

/-- Modelled from the spec: the `ExecutionPolicy` collaborator is declared
outside `src/`.  Its outcome for one call: a response value, a fatal
error (`common.StopRPCCallError`), or any other (recoverable) error. -/
inductive PolicyResult where
  | ok (resp : JSON)
  | stopRPCCall (msg : String)
  | otherError (msg : String)

/-- Modelled from the spec: an Execution Policy maps one RPC call to a
classified outcome (the cell handle argument carries no information the
claims depend on and is elided). -/
def Policy : Type := RPCCall → PolicyResult

/-- Whether a policy outcome is the fatal classification. -/
def isFatal : PolicyResult → Bool
  | PolicyResult.stopRPCCall _ => true
  | _ => false

/-- The fields of `newErrorResponse` from `jail.go`: a JSON-RPC error
response with code -32603 carrying the message, correlated by `id`. -/
def errorResponseFields (msg : String) (id : JSON) : List (String × JSON) :=
  [("jsonrpc", JSON.str "2.0"),
   ("id", id),
   ("error", JSON.obj [("code", JSON.num (-32603)), ("message", JSON.str msg)])]

/-- Outcome of one `Send` dispatch: a Go runtime panic, a JavaScript
exception raised through `throwJSException`, or an ordinary returned
value. -/
inductive SendOutcome where
  | panicked (msg : String)
  | thrown (msg : String)
  | value (v : JSON)

/-- Whether the outcome is a JavaScript exception. -/
def SendOutcome.isThrown : SendOutcome → Bool
  | SendOutcome.thrown _ => true
  | _ => false

/-- The Go runtime message for indexing an empty byte slice at 0. -/
def outOfRangeMsg : String := "runtime error: index out of range [0] with length 0"

/-- The `throwJSException` message built by `Send` for an undecodable
payload (model of the `fmt.Errorf` format string, without the underlying
decoder detail). -/
def malformedMsg (raw : String) (batch : Bool) : String :=
  "can\x27t unmarshal " ++ raw ++ " (batch=" ++ (if batch then "true" else "false") ++ ")"

/-- The loop body of `Send` over the decoded calls: on success push the
policy's response; on a `StopRPCCallError` return immediately with the
fatal message; on any other error push `newErrorResponse` with the call's
own id and continue. -/
def execLoop (policy : Policy) : List RPCCall → Except String (List JSON)
  | [] => Except.ok []
  | req :: rest =>
    match policy req with
    | PolicyResult.stopRPCCall m => Except.error m
    | PolicyResult.ok res =>
      match execLoop policy rest with
      | Except.error m => Except.error m
      | Except.ok rs => Except.ok (res :: rs)
    | PolicyResult.otherError m =>
      match execLoop policy rest with
      | Except.error m2 => Except.error m2
      | Except.ok rs => Except.ok (JSON.obj (errorResponseFields m req.id) :: rs)

/-- `Send` from `jail.go`, after the engine has serialized the script
argument to `raw`: classify by the first byte (a read that panics on an
empty payload), decode, drive every call through the policy, and return
either the whole ordered array (batch) or its element 0 (single call).  A
fatal policy error returns the single `newErrorResponseOtto` object with a
null id. -/
def Send (policy : Policy) (raw : String) : SendOutcome :=
  match raw.data with
  | [] => SendOutcome.panicked outOfRangeMsg
  | c :: _ =>
    let batch := c == '['
    match decodeRequest raw batch with
    | none => SendOutcome.thrown (malformedMsg raw batch)
    | some reqs =>
      match execLoop policy reqs with
      | Except.error m => SendOutcome.value (JSON.obj (errorResponseFields m JSON.null))
      | Except.ok resps =>
        if batch then SendOutcome.value (JSON.arr resps)
        else SendOutcome.value (resps.getD 0 JSON.undef)

/-- The batch classification `Send` applies to a nonempty payload: its
first byte is an opening bracket. -/
def sendBatchFlag (raw : String) : Bool :=
  match raw.data with
  | [] => false
  | c :: _ => c == '['

/-- The id field of a response object, used for request/response
correlation. -/
def respId (j : JSON) : Option JSON :=
  match j with
  | JSON.obj fs => List.lookup "id" fs
  | _ => none

/-- A cell's global namespace, as far as the host observes it: named
values in the script engine. -/
def GlobalEnv : Type := List (String × JSON)

/-- The jail's cell registry: chat id to cell globals (model of the
`cells` map; the otto engine instance itself is represented by the cell's
global namespace). -/
def Cells : Type := List (String × GlobalEnv)

/-- Map lookup in the registry. -/
def lookupCell (cells : Cells) (chatID : String) : Option GlobalEnv :=
  List.lookup chatID cells

/-- Map assignment in the registry: binds `chatID`, removing any previous
binding, as `jail.cells[chatID] = cell` does. -/
def insertCell (cells : Cells) (chatID : String) (env : GlobalEnv) : Cells :=
  (chatID, env) :: cells.filter (fun p => !(p.1 == chatID))

/-- The globals of a freshly created cell (a new otto engine). -/
def newCellEnv : GlobalEnv := []

/-- `NewCell` from `jail.go`: create a fresh cell around a new engine and
store it under `chatID` unconditionally. -/
def NewCell (cells : Cells) (chatID : String) : Cells × GlobalEnv :=
  (insertCell cells chatID newCellEnv, newCellEnv)

/-- Bind a host value into a cell's global namespace (`cell.Set`). -/
def setGlobal (env : GlobalEnv) (name : String) (v : JSON) : GlobalEnv :=
  (name, v) :: env.filter (fun p => !(p.1 == name))

/-- Read a global by name (`cell.Get`); absent means undefined. -/
def getGlobal (env : GlobalEnv) (name : String) : Option JSON :=
  List.lookup name env

/-- Modelled from the spec: the script engine and the handler
installation (`registerHandlers`, declared outside `src/`) are external
collaborators.  Running script text or installing the host call surface
transforms the cell's globals and may additionally report an error; the
globals returned alongside an error are whatever the partial run left
behind. -/
structure EngineOps where
  registerHandlers : GlobalEnv → GlobalEnv × Option String
  runJS : GlobalEnv → String → GlobalEnv × Option String

/-- Modelled from the spec: the embedded web3 bootstrap payload
(`static.MustAsset`, outside `src/`) is opaque script text. -/
def web3JSCode : String := "/* web3.js bootstrap payload */"

/-- The composed script `Parse` runs: web3 bootstrap, binding glue, the
user script, and the catalog serialization epilogue. -/
def composedScript (js : String) : String :=
  web3JSCode
    ++ "\n\tvar Web3 = require(\x27web3\x27);\n\tvar web3 = new Web3(jeth);\n\tvar Bignumber = require(\"bignumber.js\");\n        function bn(val)\x7b\n            return new Bignumber(val);\n        \x7d\n\t"
    ++ js ++ "; var catalog = JSON.stringify(_status_catalog);"

/-- A cell value as the otto `String()` conversion used by `Parse`
renders it: undefined for an absent global, the raw characters of a
string value, JSON text otherwise. -/
def valueToEngineString : Option JSON → String
  | none => "undefined"
  | some JSON.undef => "undefined"
  | some (JSON.str s) => s
  | some v => stringifyJSON v

/-- `Parse` from `jail.go`: reuse the cell registered for `chatID` or
create and register a fresh one, install the `jeth` surface and handlers,
run the base script, run the composed user script, and return the result
envelope for the `catalog` global.  Every early error return leaves the
mutated cell in the registry (in Go the map holds a pointer to the cell
being mutated).  The infallible engine steps of the source
(`cell.Set`, which cannot fail on a live engine) are modelled as always
succeeding. -/
def Parse (eng : EngineOps) (baseJSCode : String) (cells : Cells) (chatID js : String) :
    Cells × String :=
  let found := lookupCell cells chatID
  let cells1 := match found with
    | some _ => cells
    | none => (NewCell cells chatID).1
  let env0 := match found with
    | some env => env
    | none => newCellEnv
  let env1 := setGlobal env0 "jeth" (JSON.obj [])
  match eng.registerHandlers env1 with
  | (env2, some e) => (insertCell cells1 chatID env2, makeError e)
  | (env2, none) =>
    match eng.runJS env2 (baseJSCode ++ ";") with
    | (env3, some e) => (insertCell cells1 chatID env3, makeError e)
    | (env3, none) =>
      match eng.runJS env3 (composedScript js) with
      | (env4, some e) => (insertCell cells1 chatID env4, makeError e)
      | (env4, none) =>
        (insertCell cells1 chatID env4,
          makeResult (valueToEngineString (getGlobal env4 "catalog")) none)

/-- The globals of the `rxsend_test.go` cell fixture that the `call`
function touches: the `context` object (namespace to key to value), the
correlation id `status.message_id`, the `callResult` global assigned
without `var` inside `call`, and any other globals command handlers may
set. -/
structure FixtureState where
  context : List (String × List (String × JSON))
  messageId : String
  callResult : Option JSON
  extra : List (String × JSON)

/-- `addContext` from the fixture: `context[ns][key] = value`, creating
the namespace if absent. -/
def addContext (st : FixtureState) (ns key : String) (v : JSON) : FixtureState :=
  match List.lookup ns st.context with
  | none => { st with context := (ns, [(key, v)]) :: st.context }
  | some kvs =>
    { st with context :=
        (ns, (key, v) :: kvs.filter (fun p => !(p.1 == key)))
          :: st.context.filter (fun p => !(p.1 == ns)) }

/-- A catalog command handler: runs against the cell's globals (it may
mutate them, directly or through `addContext`) and produces a result
value. -/
def Handler : Type := FixtureState → JSON → FixtureState × JSON

/-- The `call` function of the `rxsend_test.go` fixture: reset the
`context` global to an empty object, resolve the handler by path in
`_status_catalog` (null result when absent), run it, assign its result to
the `callResult` global, and return the stringified result together with
`context[status.message_id]`. -/
def jsCallFn (resolve : List String → Option Handler) (st : FixtureState)
    (path : List String) (params : JSON) : FixtureState × JSON :=
  let st1 := { st with context := [] }
  match resolve path with
  | none => (st1, JSON.null)
  | some fn =>
    let out := fn st1 params
    let st2 := { out.1 with callResult := some out.2 }
    let ctxVal : JSON :=
      match List.lookup st2.messageId st2.context with
      | none => JSON.undef
      | some kvs => JSON.obj kvs
    let res := JSON.obj [("result", out.2), ("context", ctxVal)]
    (st2, JSON.str (stringifyJSON res))

/-! ## Helper lemmas -/

theorem lookup_filter_ne {β : Type} (l : List (String × β)) (k id : String) (h : k ≠ id) :
    List.lookup k (l.filter (fun p => !(p.1 == id))) = List.lookup k l := by
  induction l with
  | nil => rfl
  | cons p l ih =>
    have hk : (k == id) = false := by simp [h]
    by_cases hp : p.1 = id
    · simp [List.filter, hp, List.lookup, hk, ih]
    · have hpid : (p.1 == id) = false := by simp [hp]
      simp [List.filter, hpid, List.lookup, ih]

theorem lookup_insertCell_self (cells : Cells) (chatID : String) (env : GlobalEnv) :
    lookupCell (insertCell cells chatID env) chatID = some env := by
  simp [lookupCell, insertCell, List.lookup]

theorem lookup_insertCell_ne (cells : Cells) (chatID k : String) (env : GlobalEnv)
    (h : k ≠ chatID) :
    lookupCell (insertCell cells chatID env) k = lookupCell cells k := by
  have hk : (k == chatID) = false := by simp [h]
  simp only [lookupCell, insertCell, List.lookup, hk]
  exact lookup_filter_ne cells k chatID h

/-! ## C10: NewCell overwrites unconditionally -/

/-- C10: `NewCell(chatID)` performs no existence check: it registers a
fresh cell (a new engine with empty globals) under `chatID`, silently
replacing whatever cell was registered there, and leaves every other
chat id's binding unchanged. -/
theorem newcell_replaces_existing (cells : Cells) (chatID : String) :
    (NewCell cells chatID).2 = newCellEnv
    ∧ lookupCell (NewCell cells chatID).1 chatID = some newCellEnv
    ∧ ∀ k : String, k ≠ chatID → lookupCell (NewCell cells chatID).1 k = lookupCell cells k := by
  refine ⟨rfl, lookup_insertCell_self cells chatID newCellEnv, ?_⟩
  intro k hk
  exact lookup_insertCell_ne cells chatID k newCellEnv hk

/-- Witness for C10: a registry already holding a cell for chat id `a`
with a marker global; `NewCell` replaces it with the fresh empty cell and
leaves chat id `b` alone. -/
theorem newcell_replaces_existing_witness :
    lookupCell (NewCell [("a", [("marker", JSON.num 1)])] "a").1 "a" = some newCellEnv
    ∧ lookupCell (NewCell [("a", [("marker", JSON.num 1)])] "a").1 "b"
        = lookupCell [("a", [("marker", JSON.num 1)])] "b" :=
  ⟨(newcell_replaces_existing [("a", [("marker", JSON.num 1)])] "a").2.1,
   (newcell_replaces_existing [("a", [("marker", JSON.num 1)])] "a").2.2 "b" (by decide)⟩

/-! ## C9: empty serialized payload panics -/

/-- C9: `Send` reads the first byte of the payload without a length
check: on the empty serialization it ends in the index-out-of-range
runtime panic, not in the thrown `MalformedRequest` exception used for
other undecodable payloads. -/
theorem send_empty_payload_panics (policy : Policy) :
    Send policy "" = SendOutcome.panicked outOfRangeMsg
    ∧ (Send policy "").isThrown = false :=
  ⟨rfl, rfl⟩

/-! ## C6: makeResult / makeError (corrected) -/

/-- Counterexample for C6 as stated: `makeResult` is not a one-argument
wrapper with no error case — with an error present it ignores the raw
text and produces the error envelope instead of the result envelope. -/
theorem makeResult_error_branch_cex :
    makeResult "5" (some "boom") = "\x7b\"error\":\"boom\"\x7d"
    ∧ makeResult "5" (some "boom") ≠ "\x7b\"result\": 5\x7d" := by
  refine ⟨rfl, ?_⟩
  decide

/-- C6 amended: `makeError` wraps a message into the error envelope;
`makeResult` takes the raw text and an error: with no error it wraps the
raw text into the result envelope, normalizing the literal text undefined
to null first, and with an error present it returns `makeError` of the
error message. -/
theorem makeResult_makeError_spec :
    makeError "boom" = "\x7b\"error\":\"boom\"\x7d"
    ∧ makeResult "undefined" none = "\x7b\"result\": null\x7d"
    ∧ makeResult "5" none = "\x7b\"result\": 5\x7d"
    ∧ (∀ r e, makeResult r (some e) = makeError e)
    ∧ (∀ r, r ≠ "undefined" → makeResult r none = "\x7b\"result\": " ++ r ++ "\x7d") := by
  refine ⟨rfl, rfl, rfl, fun r e => rfl, fun r h => ?_⟩
  simp [makeResult, h]

/-- Witness for C6: the normalization-free branch at the raw text 7. -/
theorem makeResult_makeError_spec_witness :
    makeResult "7" none = "\x7b\"result\": 7\x7d" :=
  makeResult_makeError_spec.2.2.2.2 "7" (by decide)

/-! ## Batch loop lemmas -/

/-- The response entry the loop body of `Send` pushes for one call when
the policy outcome is not fatal: the policy's own response on success,
`newErrorResponse` correlated by the call's id on a recoverable error. -/
def stepResp (policy : Policy) (req : RPCCall) : JSON :=
  match policy req with
  | PolicyResult.ok r => r
  | PolicyResult.otherError m => JSON.obj (errorResponseFields m req.id)
  | PolicyResult.stopRPCCall _ => JSON.undef

theorem execLoop_no_fatal (policy : Policy) (reqs : List RPCCall)
    (h : ∀ r ∈ reqs, isFatal (policy r) = false) :
    execLoop policy reqs = Except.ok (reqs.map (stepResp policy)) := by
  induction reqs with
  | nil => rfl
  | cons req rest ih =>
    have hrest : ∀ r ∈ rest, isFatal (policy r) = false :=
      fun r hr => h r (List.mem_cons_of_mem req hr)
    have hhead := h req (List.mem_cons_self req rest)
    cases hp : policy req with
    | stopRPCCall m => rw [hp] at hhead; exact absurd hhead (by simp [isFatal])
    | ok res => simp [execLoop, hp, ih hrest, List.map, stepResp]
    | otherError m => simp [execLoop, hp, ih hrest, List.map, stepResp]

theorem execLoop_fatal (policy : Policy) (pre : List RPCCall) (req : RPCCall)
    (rest : List RPCCall) (m : String)
    (hpre : ∀ r ∈ pre, isFatal (policy r) = false)
    (hreq : policy req = PolicyResult.stopRPCCall m) :
    execLoop policy (pre ++ req :: rest) = Except.error m := by
  induction pre with
  | nil => simp [execLoop, hreq]
  | cons p pre ih =>
    have hprest : ∀ r ∈ pre, isFatal (policy r) = false :=
      fun r hr => hpre r (List.mem_cons_of_mem p hr)
    have hhead := hpre p (List.mem_cons_self p pre)
    cases hp : policy p with
    | stopRPCCall m2 => rw [hp] at hhead; exact absurd hhead (by simp [isFatal])
    | ok res => simp [execLoop, hp, ih hprest]
    | otherError m2 => simp [execLoop, hp, ih hprest]

theorem respId_stepResp (policy : Policy) (req : RPCCall) (m : String)
    (h : policy req = PolicyResult.otherError m) :
    stepResp policy req = JSON.obj (errorResponseFields m req.id) := by
  simp [stepResp, h]

/-- `Send` on a payload whose first byte classifies it as batch, decoded
successfully, with no fatal policy outcome: the result is the ordered
response array produced entrywise by the loop body. -/
theorem send_batch_no_fatal (policy : Policy) (raw : String) (reqs : List RPCCall)
    (hflag : sendBatchFlag raw = true)
    (hdec : decodeRequest raw true = some reqs)
    (hnf : ∀ r ∈ reqs, isFatal (policy r) = false) :
    Send policy raw = SendOutcome.value (JSON.arr (reqs.map (stepResp policy))) := by
  cases hd : raw.data with
  | nil => rw [sendBatchFlag, hd] at hflag; exact absurd hflag (by simp)
  | cons c cs =>
    have hc : (c == '[') = true := by rw [sendBatchFlag, hd] at hflag; exact hflag
    rw [Send, hd]
    simp [hc, hdec, execLoop_no_fatal policy reqs hnf]

/-- `newErrorResponse` echoes the id it is given. -/
theorem respId_errorResponse (m : String) (id : JSON) :
    respId (JSON.obj (errorResponseFields m id)) = some id := rfl

/-! ## C1: batch responses are ordered and id-correlated -/

/-- C1: on a batch whose calls all avoid the fatal classification, and
with an Execution Policy whose success responses echo the call's id (the
specified policy contract), `Send` returns the ordered response array
with exactly one entry per call, the k-th entry's id being the k-th
call's id. -/
theorem send_batch_preserves_length_and_ids (policy : Policy) (raw : String)
    (reqs : List RPCCall)
    (hflag : sendBatchFlag raw = true)
    (hdec : decodeRequest raw true = some reqs)
    (hnf : ∀ r ∈ reqs, isFatal (policy r) = false)
    (hids : ∀ r ∈ reqs, ∀ resp, policy r = PolicyResult.ok resp → respId resp = some r.id) :
    ∃ resps : List JSON,
      Send policy raw = SendOutcome.value (JSON.arr resps)
      ∧ resps.length = reqs.length
      ∧ ∀ k, k < reqs.length →
          respId (resps.getD k JSON.undef) = some ((reqs.getD k default).id) := by
  refine ⟨reqs.map (stepResp policy),
    send_batch_no_fatal policy raw reqs hflag hdec hnf, by simp, ?_⟩
  intro k hk
  have hk2 : k < (reqs.map (stepResp policy)).length := by simp [hk]
  rw [List.getD_eq_getElem _ _ hk2, List.getElem_map, List.getD_eq_getElem _ _ hk]
  have hmem : reqs[k] ∈ reqs := List.getElem_mem hk
  cases hp : policy reqs[k] with
  | stopRPCCall m =>
    have hh := hnf _ hmem
    rw [hp] at hh
    exact absurd hh (by simp [isFatal])
  | ok resp =>
    have : stepResp policy reqs[k] = resp := by simp [stepResp, hp]
    rw [this]
    exact hids _ hmem resp hp
  | otherError m =>
    rw [respId_stepResp policy reqs[k] m hp]
    exact respId_errorResponse m _

def c1Policy : Policy := fun req =>
  PolicyResult.ok (JSON.obj [("jsonrpc", JSON.str "2.0"), ("id", req.id), ("result", JSON.null)])

def c1Raw : String := "[\x7b\"method\":\"a\",\"id\":1\x7d,\x7b\"method\":\"b\",\"id\":2\x7d]"

def c1Reqs : List RPCCall := [⟨"a", [], JSON.num 1⟩, ⟨"b", [], JSON.num 2⟩]

def c1R1 : JSON := JSON.obj [("jsonrpc", JSON.str "2.0"), ("id", JSON.num 1), ("result", JSON.null)]

def c1R2 : JSON := JSON.obj [("jsonrpc", JSON.str "2.0"), ("id", JSON.num 2), ("result", JSON.null)]

/-- Witness for C1: a 2-call batch with an id-echoing policy yields the
2-entry array whose entries carry ids 1 and 2 in order. -/
theorem send_batch_preserves_length_and_ids_witness :
    Send c1Policy c1Raw = SendOutcome.value (JSON.arr [c1R1, c1R2])
    ∧ respId c1R1 = some (JSON.num 1)
    ∧ respId c1R2 = some (JSON.num 2) := by
  obtain ⟨resps, h1, h2, h3⟩ :=
    send_batch_preserves_length_and_ids c1Policy c1Raw c1Reqs rfl rfl
      (fun r _ => rfl) (fun r _ resp hp => by cases hp; rfl)
  have e : SendOutcome.value (JSON.arr resps)
      = SendOutcome.value (JSON.arr [c1R1, c1R2]) := h1.symm.trans rfl
  injection e with e1
  injection e1 with e2
  subst e2
  exact ⟨h1, h3 0 (by decide), h3 1 (by decide)⟩

/-! ## C3: recoverable errors are encoded per call, siblings run -/

/-- C3: when call k of a batch gets a non-fatal policy error and no call
is classified fatal, the dispatch still returns the full ordered array
(every sibling produced its entry) and the k-th entry is the
`newErrorResponse` object with code -32603, the error text, and the
failing call's own id. -/
theorem send_recoverable_error_keeps_siblings (policy : Policy) (raw : String)
    (reqs : List RPCCall) (k : Nat) (m : String)
    (hflag : sendBatchFlag raw = true)
    (hdec : decodeRequest raw true = some reqs)
    (hnf : ∀ r ∈ reqs, isFatal (policy r) = false)
    (hk : k < reqs.length)
    (herr : policy (reqs.getD k default) = PolicyResult.otherError m) :
    ∃ resps : List JSON,
      Send policy raw = SendOutcome.value (JSON.arr resps)
      ∧ resps.length = reqs.length
      ∧ resps.getD k JSON.undef
          = JSON.obj (errorResponseFields m ((reqs.getD k default).id)) := by
  refine ⟨reqs.map (stepResp policy),
    send_batch_no_fatal policy raw reqs hflag hdec hnf, by simp, ?_⟩
  have hk2 : k < (reqs.map (stepResp policy)).length := by simp [hk]
  rw [List.getD_eq_getElem _ _ hk2, List.getElem_map]
  rw [List.getD_eq_getElem _ _ hk] at herr ⊢
  rw [respId_stepResp policy reqs[k] m herr]

def c3Policy : Policy := fun req =>
  if req.method == "bad" then PolicyResult.otherError "boom"
  else PolicyResult.ok (JSON.obj [("jsonrpc", JSON.str "2.0"), ("id", req.id), ("result", JSON.num 0)])

def c3Raw : String := "[\x7b\"method\":\"a\",\"id\":1\x7d,\x7b\"method\":\"bad\",\"id\":2\x7d]"

def c3Reqs : List RPCCall := [⟨"a", [], JSON.num 1⟩, ⟨"bad", [], JSON.num 2⟩]

def c3R1 : JSON := JSON.obj [("jsonrpc", JSON.str "2.0"), ("id", JSON.num 1), ("result", JSON.num 0)]

/-- Witness for C3: batch [a, bad] where bad fails recoverably yields
both entries, the second being the error object with id 2. -/
theorem send_recoverable_error_keeps_siblings_witness :
    Send c3Policy c3Raw
      = SendOutcome.value (JSON.arr [c3R1, JSON.obj (errorResponseFields "boom" (JSON.num 2))]) := by
  obtain ⟨resps, h1, h2, h3⟩ :=
    send_recoverable_error_keeps_siblings c3Policy c3Raw c3Reqs 1 "boom" rfl rfl
      (by
        intro r hr
        simp only [c3Reqs, List.mem_cons, List.not_mem_nil, or_false] at hr
        rcases hr with h | h <;> subst h <;> rfl)
      (by decide) rfl
  have e : SendOutcome.value (JSON.arr resps)
      = SendOutcome.value
          (JSON.arr [c3R1, JSON.obj (errorResponseFields "boom" (JSON.num 2))]) :=
    h1.symm.trans rfl
  injection e with e1
  injection e1 with e2
  subst e2
  exact h1

/-! ## C2: fatal error aborts the batch (corrected) -/

def c2Policy : Policy := fun _ => PolicyResult.stopRPCCall "fatal: stop"

def c2Raw : String := "[\x7b\"method\":\"a\",\"id\":1\x7d,\x7b\"method\":\"b\",\"id\":2\x7d]"

/-- Counterexample for C2 as stated: on a 2-call batch whose first call
is classified fatal, the dispatch result is NOT a caller-visible
exception — `Send` returns normally, with the single
`newErrorResponseOtto` error object (id null) as its value. -/
theorem send_fatal_returns_value_not_exception_cex :
    (Send c2Policy c2Raw).isThrown = false
    ∧ Send c2Policy c2Raw
        = SendOutcome.value (JSON.obj (errorResponseFields "fatal: stop" JSON.null)) :=
  ⟨rfl, rfl⟩

/-- C2 amended: if call k of a batch is classified fatal
(`StopRPCCallError`) and no earlier call is, the dispatch result is the
single error-response object carrying the error text with a null id,
returned as a value (not a thrown exception and not a partial response
array), and the calls after k are never passed to the policy: any policy
agreeing with the given one on the calls up to and including k produces
the identical dispatch result. -/
theorem send_fatal_aborts_batch (policy : Policy) (raw : String)
    (pre : List RPCCall) (req : RPCCall) (rest : List RPCCall) (m : String)
    (hflag : sendBatchFlag raw = true)
    (hdec : decodeRequest raw true = some (pre ++ req :: rest))
    (hpre : ∀ r ∈ pre, isFatal (policy r) = false)
    (hreq : policy req = PolicyResult.stopRPCCall m) :
    Send policy raw = SendOutcome.value (JSON.obj (errorResponseFields m JSON.null))
    ∧ (Send policy raw).isThrown = false
    ∧ ∀ policy2 : Policy,
        (∀ r ∈ pre, policy2 r = policy r) → policy2 req = policy req →
        Send policy2 raw = SendOutcome.value (JSON.obj (errorResponseFields m JSON.null)) := by
  have main : ∀ p2 : Policy, (∀ r ∈ pre, isFatal (p2 r) = false) →
      p2 req = PolicyResult.stopRPCCall m →
      Send p2 raw = SendOutcome.value (JSON.obj (errorResponseFields m JSON.null)) := by
    intro p2 hp2 hr2
    cases hd : raw.data with
    | nil => rw [sendBatchFlag, hd] at hflag; exact absurd hflag (by simp)
    | cons c cs =>
      have hc : (c == '[') = true := by rw [sendBatchFlag, hd] at hflag; exact hflag
      rw [Send, hd]
      simp [hc, hdec, execLoop_fatal p2 pre req rest m hp2 hr2]
  have h1 := main policy hpre hreq
  refine ⟨h1, by rw [h1]; rfl, ?_⟩
  intro policy2 hagree hreq2
  exact main policy2 (fun r hr => by rw [hagree r hr]; exact hpre r hr) (hreq2.trans hreq)

def c2PolicyA : Policy := fun req =>
  if req.method == "a" then PolicyResult.stopRPCCall "stopped" else PolicyResult.ok JSON.null

def c2PolicyB : Policy := fun req =>
  if req.method == "a" then PolicyResult.stopRPCCall "stopped" else PolicyResult.otherError "different"

/-- Witness for C2 amended: a fatal classification on the first call of
the 2-call batch yields the single error object, and a second policy that
disagrees on the never-reached second call yields the identical result. -/
theorem send_fatal_aborts_batch_witness :
    Send c2PolicyA c2Raw = SendOutcome.value (JSON.obj (errorResponseFields "stopped" JSON.null))
    ∧ Send c2PolicyB c2Raw = SendOutcome.value (JSON.obj (errorResponseFields "stopped" JSON.null)) := by
  have h := send_fatal_aborts_batch c2PolicyA c2Raw [] ⟨"a", [], JSON.num 1⟩
    [⟨"b", [], JSON.num 2⟩] "stopped" rfl rfl (fun r hr => absurd hr (List.not_mem_nil r)) rfl
  exact ⟨h.1, h.2.2 c2PolicyB (fun r hr => absurd hr (List.not_mem_nil r)) rfl⟩

/-! ## C5: a single-call request returns the lone object -/

theorem decodeRequest_data_ne_nil (raw : String) (b : Bool) (reqs : List RPCCall)
    (h : decodeRequest raw b = some reqs) : raw.data ≠ [] := by
  intro hn
  have hp : parseJSONTop raw = none := by unfold parseJSONTop; rw [hn]; rfl
  unfold decodeRequest at h
  rw [hp] at h
  exact absurd h (by simp)

theorem json_ne_arr_self (v : JSON) : v ≠ JSON.arr [v] := by
  intro h
  have hs := congrArg sizeOf h
  simp at hs
  omega

/-- C5: on a single-call (non-array) payload that decodes to one call, a
successful policy outcome is returned as the lone response object itself
— element 0 of the internal array — and in particular not as a
one-element array. -/
theorem send_single_call_returns_object (policy : Policy) (raw : String)
    (req : RPCCall) (resp : JSON)
    (hflag : sendBatchFlag raw = false)
    (hdec : decodeRequest raw false = some [req])
    (hok : policy req = PolicyResult.ok resp) :
    Send policy raw = SendOutcome.value resp
    ∧ Send policy raw ≠ SendOutcome.value (JSON.arr [resp]) := by
  have hne := decodeRequest_data_ne_nil raw false [req] hdec
  cases hd : raw.data with
  | nil => exact absurd hd hne
  | cons c cs =>
    have hc : (c == '[') = false := by rw [sendBatchFlag, hd] at hflag; exact hflag
    have h1 : Send policy raw = SendOutcome.value resp := by
      rw [Send, hd]
      simp [hc, hdec, execLoop, hok]
    refine ⟨h1, ?_⟩
    intro heq
    rw [h1] at heq
    injection heq with h2
    exact json_ne_arr_self resp h2

/-- Adds the first two numeric parameters (the example policy of the
spec's testable property for single-call dispatch). -/
def addFirstTwo : List JSON → JSON
  | JSON.num a :: JSON.num b :: _ => JSON.num (a + b)
  | _ => JSON.null

def c5Policy : Policy := fun req =>
  PolicyResult.ok
    (JSON.obj [("jsonrpc", JSON.str "2.0"), ("id", req.id), ("result", addFirstTwo req.params)])

def c5Raw : String := "\x7b\"method\":\"foo\",\"params\":[1,2],\"id\":7\x7d"

/-- Witness for C5: the spec's example request with the echoing policy
yields the single object with result 3, not a one-element array. -/
theorem send_single_call_returns_object_witness :
    Send c5Policy c5Raw
      = SendOutcome.value (JSON.obj [("jsonrpc", JSON.str "2.0"), ("id", JSON.num 7), ("result", JSON.num 3)])
    ∧ Send c5Policy c5Raw
      ≠ SendOutcome.value (JSON.arr [JSON.obj [("jsonrpc", JSON.str "2.0"), ("id", JSON.num 7), ("result", JSON.num 3)]]) := by
  have h := send_single_call_returns_object c5Policy c5Raw
    ⟨"foo", [JSON.num 1, JSON.num 2], JSON.num 7⟩
    (JSON.obj [("jsonrpc", JSON.str "2.0"), ("id", JSON.num 7), ("result", JSON.num 3)])
    rfl rfl rfl
  exact h

/-! ## C4: batch classification and malformed payloads -/

theorem natToDigitsAux_head (fuel n : Nat) :
    ∃ d, d < 10 ∧ (natToDigitsAux (Nat.succ fuel) n).head? = some (digitChar d) := by
  have heq : ∀ m k : Nat, natToDigitsAux (Nat.succ m) k
      = if k < 10 then [digitChar k] else natToDigitsAux m (k / 10) ++ [digitChar (k % 10)] :=
    fun m k => rfl
  induction fuel generalizing n with
  | zero =>
    rw [heq]
    split
    · next h => exact ⟨n, h, rfl⟩
    · exact ⟨n % 10, by omega, rfl⟩
  | succ f ihf =>
    rw [heq]
    split
    · next h => exact ⟨n, h, rfl⟩
    · obtain ⟨d, hd, hh⟩ := ihf (n / 10)
      cases hc : natToDigitsAux (Nat.succ f) (n / 10) with
      | nil => rw [hc] at hh; exact absurd hh (by simp)
      | cons c cs =>
        rw [hc] at hh
        simp at hh
        exact ⟨d, hd, by simp [hh]⟩

theorem natToDigits_head (n : Nat) :
    ∃ d, d < 10 ∧ (natToDigits n).head? = some (digitChar d) :=
  natToDigitsAux_head n n

theorem natToDigits_ne_nil (n : Nat) : natToDigits n ≠ [] := by
  obtain ⟨d, _, hh⟩ := natToDigits_head n
  intro h
  rw [h] at hh
  exact absurd hh (by simp)

theorem digitChar_ne_lbracket (d : Nat) (h : d < 10) : (digitChar d == '[') = false := by
  interval_cases d <;> decide

theorem intChars_shape (n : Int) :
    ∃ c rest, intChars n = c :: rest ∧ (c == '[') = false := by
  unfold intChars
  split
  · exact ⟨'-', natToDigits n.natAbs, rfl, by decide⟩
  · obtain ⟨d, hd, hh⟩ := natToDigits_head n.natAbs
    cases hc : natToDigits n.natAbs with
    | nil => exact absurd hc (natToDigits_ne_nil _)
    | cons c cs =>
      rw [hc] at hh
      simp at hh
      exact ⟨c, cs, rfl, by rw [hh]; exact digitChar_ne_lbracket d hd⟩

theorem stringifyChars_shape (v : JSON) :
    ∃ c rest, stringifyChars v = c :: rest ∧ (c == '[') = JSON.isArr v := by
  cases v with
  | null => exact ⟨'n', [ 'u', 'l', 'l' ], rfl, rfl⟩
  | undef => exact ⟨'u', [ 'n', 'd', 'e', 'f', 'i', 'n', 'e', 'd' ], rfl, rfl⟩
  | bool b =>
    cases b
    · exact ⟨'f', [ 'a', 'l', 's', 'e' ], rfl, rfl⟩
    · exact ⟨'t', [ 'r', 'u', 'e' ], rfl, rfl⟩
  | num n =>
    obtain ⟨c, rest, h1, h2⟩ := intChars_shape n
    exact ⟨c, rest, h1, by rw [h2]; rfl⟩
  | str s => exact ⟨'"', escapeChars s.data ++ [ '"' ], rfl, rfl⟩
  | arr xs => exact ⟨'[', stringifyList xs ++ [ ']' ], rfl, rfl⟩
  | obj fs => exact ⟨lbrace, stringifyFields fs ++ [rbrace], rfl, rfl⟩

/-- C4: for every serialized payload, `Send` classifies it as batch
exactly when the serialized value is an array (first byte an opening
bracket), any decode failure ends the whole dispatch in the thrown
`MalformedRequest` exception whose message carries the raw payload and
the batch flag, and a successful single-call decode yields exactly one
call. -/
theorem send_classification (v : JSON) (policy : Policy) :
    sendBatchFlag (stringifyJSON v) = JSON.isArr v
    ∧ (decodeRequest (stringifyJSON v) (sendBatchFlag (stringifyJSON v)) = none →
        Send policy (stringifyJSON v)
          = SendOutcome.thrown
              (malformedMsg (stringifyJSON v) (sendBatchFlag (stringifyJSON v))))
    ∧ (∀ reqs, decodeRequest (stringifyJSON v) false = some reqs → reqs.length = 1) := by
  obtain ⟨c, rest, hs, hc⟩ := stringifyChars_shape v
  have hdata : (stringifyJSON v).data = c :: rest := by simp [stringifyJSON, hs]
  have hflag : sendBatchFlag (stringifyJSON v) = (c == '[') := by rw [sendBatchFlag, hdata]
  refine ⟨by rw [hflag, hc], ?_, ?_⟩
  · intro hdec
    rw [hflag] at hdec ⊢
    rw [Send, hdata]
    simp [hdec]
  · intro reqs hdec
    unfold decodeRequest at hdec
    cases hp : parseJSONTop (stringifyJSON v) with
    | none => rw [hp] at hdec; simp at hdec
    | some j =>
      rw [hp] at hdec
      simp only [Bool.false_eq_true, if_false] at hdec
      cases hdc : decodeRPCCall j with
      | none => rw [hdc] at hdec; simp at hdec
      | some call =>
        rw [hdc] at hdec
        simp at hdec
        rw [← hdec]
        rfl

def c4Policy : Policy := fun _ => PolicyResult.ok JSON.null

/-- Witness for C4: the non-object payload 5 is classified single and is
undecodable, so dispatch ends in the malformed-request exception; the
object payload with method x decodes to exactly one call. -/
theorem send_classification_witness :
    sendBatchFlag (stringifyJSON (JSON.num 5)) = JSON.isArr (JSON.num 5)
    ∧ Send c4Policy (stringifyJSON (JSON.num 5))
        = SendOutcome.thrown
            (malformedMsg (stringifyJSON (JSON.num 5)) (sendBatchFlag (stringifyJSON (JSON.num 5))))
    ∧ ([(⟨"x", [], JSON.null⟩ : RPCCall)]).length = 1 :=
  ⟨(send_classification (JSON.num 5) c4Policy).1,
   (send_classification (JSON.num 5) c4Policy).2.1 rfl,
   (send_classification (JSON.obj [("method", JSON.str "x")]) c4Policy).2.2
     [⟨"x", [], JSON.null⟩] rfl⟩

/-! ## C7: initialization failures leave the cell registered -/

/-- The globals of a fresh cell right after `Parse` has installed the
`jeth` surface. -/
def jethEnv : GlobalEnv := setGlobal newCellEnv "jeth" (JSON.obj [])

/-- C7: on a fresh chat id, if any initialization step after cell
creation fails — installing the host call surface, running the base
bootstrap code, or running the composed user script — `Parse` returns the
error envelope for that step's error, yet the partially initialized cell
stays registered under the chat id, holding exactly the globals the
failed step left behind (no rollback). -/
theorem parse_failure_keeps_cell (eng : EngineOps) (baseJS : String) (cells : Cells)
    (chatID js : String)
    (hfresh : lookupCell cells chatID = none) :
    (∀ env2 e, eng.registerHandlers jethEnv = (env2, some e) →
        (Parse eng baseJS cells chatID js).2 = makeError e
        ∧ lookupCell (Parse eng baseJS cells chatID js).1 chatID = some env2)
    ∧ (∀ env2 env3 e, eng.registerHandlers jethEnv = (env2, none) →
        eng.runJS env2 (baseJS ++ ";") = (env3, some e) →
        (Parse eng baseJS cells chatID js).2 = makeError e
        ∧ lookupCell (Parse eng baseJS cells chatID js).1 chatID = some env3)
    ∧ (∀ env2 env3 env4 e, eng.registerHandlers jethEnv = (env2, none) →
        eng.runJS env2 (baseJS ++ ";") = (env3, none) →
        eng.runJS env3 (composedScript js) = (env4, some e) →
        (Parse eng baseJS cells chatID js).2 = makeError e
        ∧ lookupCell (Parse eng baseJS cells chatID js).1 chatID = some env4) := by
  refine ⟨?_, ?_, ?_⟩
  · intro env2 e hreg
    rw [Parse, hfresh]
    simp only [jethEnv] at hreg
    simp [hreg, lookup_insertCell_self]
  · intro env2 env3 e hreg hrun
    rw [Parse, hfresh]
    simp only [jethEnv] at hreg
    simp [hreg, hrun, lookup_insertCell_self]
  · intro env2 env3 env4 e hreg hrun1 hrun2
    rw [Parse, hfresh]
    simp only [jethEnv] at hreg
    simp [hreg, hrun1, hrun2, lookup_insertCell_self]

/-- A concrete engine for the C7 witness: handlers install fine, the base
script runs fine, and the composed user script fails after binding a
partial global. -/
def c7Engine : EngineOps where
  registerHandlers := fun env => (env, none)
  runJS := fun env src =>
    if src = composedScript "BADJS" then (setGlobal env "partial" (JSON.num 1), some "script failure")
    else (env, none)

set_option maxRecDepth 8192 in
/-- Witness for C7: with `c7Engine`, `Parse` on a fresh chat id returns
the error envelope for the failed composed script, and the cell stays
registered holding the partial global. -/
theorem parse_failure_keeps_cell_witness :
    (Parse c7Engine "" [] "chat1" "BADJS").2 = makeError "script failure"
    ∧ lookupCell (Parse c7Engine "" [] "chat1" "BADJS").1 "chat1"
        = some (setGlobal jethEnv "partial" (JSON.num 1)) := by
  have h := (parse_failure_keeps_cell c7Engine "" [] "chat1" "BADJS" rfl).2.2
    jethEnv jethEnv (setGlobal jethEnv "partial" (JSON.num 1)) "script failure"
    rfl (by rw [show c7Engine.runJS jethEnv ("" ++ ";") = (jethEnv, none) from rfl])
    (by rw [show c7Engine.runJS jethEnv (composedScript "BADJS")
          = (setGlobal jethEnv "partial" (JSON.num 1), some "script failure") from rfl])
  exact h

/-! ## C8: per-cycle reset (corrected) -/

/-- A catalog command that stores its parameter in the global `leak`. -/
def c8SetHandler : Handler := fun st p =>
  ({ st with extra := setGlobal st.extra "leak" p }, JSON.null)

/-- A catalog command that returns the value of the global `leak`. -/
def c8ReadHandler : Handler := fun st _ =>
  (st, match getGlobal st.extra "leak" with
       | some v => v
       | none => JSON.null)

/-- A catalog resolving the two paths used in the C8 scenarios. -/
def c8Resolve : List String → Option Handler := fun path =>
  if path = ["commands", "setleak"] then some c8SetHandler
  else if path = ["commands", "readleak"] then some c8ReadHandler
  else none

/-- The fixture's initial globals. -/
def c8State0 : FixtureState :=
  { context := [], messageId := "42", callResult := none, extra := [] }

/-- Counterexample for C8 as stated: a global (`leak`) set during cycle
1's call handling IS visible to cycle 2 without being re-set — the cycle
2 handler reads back the leaked value 99 (and cycle 1's `callResult`
global also survives into cycle 2's starting state). -/
theorem call_cycle_global_leak_cex :
    ((jsCallFn c8Resolve
        (jsCallFn c8Resolve c8State0 ["commands", "setleak"] (JSON.num 99)).1
        ["commands", "readleak"] JSON.null).1).callResult = some (JSON.num 99)
    ∧ getGlobal ((jsCallFn c8Resolve c8State0 ["commands", "setleak"] (JSON.num 99)).1).extra "leak"
        = some (JSON.num 99) := ⟨rfl, rfl⟩

/-- C8 amended: at the start of every dispatch cycle the `call` fixture
resets only the `context` global to an empty object; the id correlation
(`status.message_id`), the `callResult` global, and every other global
set by earlier cycles persist into the handler's view of the cell, and
after the cycle `callResult` holds the handler's result. -/
theorem call_resets_only_context (resolve : List String → Option Handler)
    (st : FixtureState) (path : List String) (params : JSON) :
    (resolve path = none →
      (jsCallFn resolve st path params).1.context = []
      ∧ (jsCallFn resolve st path params).1.extra = st.extra
      ∧ (jsCallFn resolve st path params).1.callResult = st.callResult
      ∧ (jsCallFn resolve st path params).1.messageId = st.messageId)
    ∧ (∀ h, resolve path = some h →
      (jsCallFn resolve st path params).1
        = { (h { st with context := [] } params).1 with
            callResult := some (h { st with context := [] } params).2 }) := by
  constructor
  · intro hres
    simp [jsCallFn, hres]
  · intro h hres
    simp [jsCallFn, hres]

/-- A previous-cycle state with populated context, correlation id,
callResult and an extra global. -/
def c8StateW : FixtureState :=
  { context := [("ns", [("k", JSON.num 1)])], messageId := "42",
    callResult := some (JSON.num 7), extra := [("g", JSON.num 8)] }

/-- Witness for C8 amended: running a cycle on a populated state clears
only `context`; the extra global `g` survives alongside the newly set
`leak`, and on an unresolved path everything but `context` is untouched. -/
theorem call_resets_only_context_witness :
    (jsCallFn c8Resolve c8StateW ["commands", "setleak"] (JSON.num 5)).1
      = { context := [], messageId := "42", callResult := some JSON.null,
          extra := [("leak", JSON.num 5), ("g", JSON.num 8)] }
    ∧ (jsCallFn c8Resolve c8StateW ["unknown"] JSON.null).1.extra = c8StateW.extra
    ∧ (jsCallFn c8Resolve c8StateW ["unknown"] JSON.null).1.context = [] := by
  have h2 := (call_resets_only_context c8Resolve c8StateW ["commands", "setleak"] (JSON.num 5)).2
    c8SetHandler rfl
  have h1 := (call_resets_only_context c8Resolve c8StateW ["unknown"] JSON.null).1 rfl
  exact ⟨h2.trans rfl, h1.2.1, h1.1⟩
